import Mathlib

/-!
Verification model of the WebGPU-style intrusive reference-counting demos
(`01_intrusive_ptr.cpp`, `02_intrusive_ptr_hive.cpp`,
`03_intrusive_hive_singletonhub.cpp`).

The model is a shallow embedding of the final, most capable variant
(`03_intrusive_hive_singletonhub.cpp`); the release/add-ref logic is textually
identical in variant 02 and semantically identical in variant 01.  The
`std::atomic<std::uint64_t>` reference counter is modelled as a `Nat` reduced
modulo `2 ^ 64`, data on a single resource is the pair of its internal state
and its counter, and the surrounding hive slot, GPU teardown enqueue and C++
destructor execution are tracked in an explicit system state.
-/

set_option maxRecDepth 8000

namespace IntrusiveModel

/-- Wrap-around modulus of the `std::uint64_t` reference counter: the
literal value of `2 ^ 64`. -/
def UINT64_MOD : Nat := 18446744073709551616

theorem UINT64_MOD_eq_pow : UINT64_MOD = 2 ^ 64 := by norm_num [UINT64_MOD]

/-- `enum class TextureInternalState { Available, Unavailable, Destroyed }`
from `03_intrusive_hive_singletonhub.cpp` lines 15-19. -/
inductive TextureInternalState where
  | Available
  | Unavailable
  | Destroyed
deriving DecidableEq, Repr

/-- The per-resource fields of `class Texture`:
`mInternalState` (line 85) and `mRefCounter` (line 86, `std::uint64_t`). -/
structure Texture where
  mInternalState : TextureInternalState
  mRefCounter : Nat
deriving DecidableEq, Repr

/-- A freshly constructed `Texture` (member initializers, lines 85-86):
state `Available`, counter `0`. -/
def initTexture : Texture := ⟨.Available, 0⟩

/-- `Texture::destroy` (lines 44-72): if already `Destroyed`, do nothing;
otherwise set the state to `Destroyed` and enqueue the GPU memory
destruction.  The returned `Bool` records whether that teardown operation
was enqueued by this call. -/
def Texture.destroy (t : Texture) : Texture × Bool :=
  if t.mInternalState = .Destroyed then
    (t, false)
  else
    ({ t with mInternalState := .Destroyed }, true)

/-- `Texture::~Texture` (lines 74-82): calls `destroy()` when the state is
not yet `Destroyed`.  Returns whether the destructor enqueued the GPU
teardown. -/
def Texture.destructorTeardown (t : Texture) : Bool :=
  if t.mInternalState ≠ .Destroyed then (t.destroy).2 else false

/-- `intrusive_ptr_add_ref` (lines 117-119): `p->mRefCounter++` on a
`std::uint64_t`, which wraps around modulo `2 ^ 64`. -/
def intrusive_ptr_add_ref (t : Texture) : Texture :=
  { t with mRefCounter := (t.mRefCounter + 1) % UINT64_MOD }

/-- `intrusive_ptr_release` (lines 121-126): `--(p->mRefCounter)` on a
`std::uint64_t` (wrap-around decrement), and the returned `Bool` is the
`== 0` test that decides whether the hive slot is erased. -/
def intrusive_ptr_release (t : Texture) : Texture × Bool :=
  let c := (t.mRefCounter + (UINT64_MOD - 1)) % UINT64_MOD
  ({ t with mRefCounter := c }, c == 0)

/-- Unfolding lemma for `intrusive_ptr_add_ref` (kept as a rewrite rule: the
wrap-around arithmetic must not be unfolded definitionally against symbolic
counters). -/
theorem intrusive_ptr_add_ref_def (t : Texture) :
    intrusive_ptr_add_ref t =
      ⟨t.mInternalState, (t.mRefCounter + 1) % UINT64_MOD⟩ := rfl

/-- Unfolding lemma for `intrusive_ptr_release`. -/
theorem intrusive_ptr_release_def (t : Texture) :
    intrusive_ptr_release t =
      (⟨t.mInternalState, (t.mRefCounter + (UINT64_MOD - 1)) % UINT64_MOD⟩,
        ((t.mRefCounter + (UINT64_MOD - 1)) % UINT64_MOD) == 0) := rfl

theorem UINT64_MOD_val : UINT64_MOD = 18446744073709551616 := rfl

/-- Releasing never changes the internal state. -/
theorem release_fst_mInternalState (t : Texture) :
    (intrusive_ptr_release t).1.mInternalState = t.mInternalState := by
  obtain ⟨st, c⟩ := t
  rfl

/-- Counter after a release. -/
theorem release_fst_mRefCounter (t : Texture) :
    (intrusive_ptr_release t).1.mRefCounter =
      (t.mRefCounter + (UINT64_MOD - 1)) % UINT64_MOD := by
  obtain ⟨st, c⟩ := t
  rfl

/-- The erase decision of a release. -/
theorem release_snd (t : Texture) :
    (intrusive_ptr_release t).2 =
      ((t.mRefCounter + (UINT64_MOD - 1)) % UINT64_MOD == 0) := by
  obtain ⟨st, c⟩ := t
  rfl

/-- System state around one resource: the occupied hive slot (`none` once the
slot has been erased and the C++ object destructed), the number of GPU
teardown operations enqueued so far, and the number of times the C++
destructor has run. -/
structure SysState where
  tex : Option Texture
  teardownCount : Nat
  destructorRuns : Nat
deriving DecidableEq, Repr

/-- The three operations a holder of the raw `Texture *` handle can invoke:
`wgpuTextureAddRef`, `wgpuTextureRelease`, `wgpuTextureDestroy`. -/
inductive Op where
  | addRef
  | release
  | destroyOp
deriving DecidableEq, Repr

/-- One handle operation on the system state.  `intrusive_ptr_release`
erases the hive slot exactly when the decremented counter is zero
(line 122); `textures.erase` runs `~Texture`, which enqueues the GPU
teardown when the state is still not `Destroyed` (lines 74-82).  Operations
on an already-erased slot are undefined behaviour in the C++ source; the
model freezes the state there, and the theorems that depend on it carry a
`noUseAfterFree` hypothesis restricting attention to defined executions. -/
def sysStep (s : SysState) (op : Op) : SysState :=
  match s.tex with
  | none => s
  | some t =>
    match op with
    | .addRef => { s with tex := some (intrusive_ptr_add_ref t) }
    | .destroyOp =>
      let r := t.destroy
      { s with
        tex := some r.1
        teardownCount := s.teardownCount + (if r.2 then 1 else 0) }
    | .release =>
      let r := intrusive_ptr_release t
      if r.2 then
        { tex := none
          teardownCount :=
            s.teardownCount + (if r.1.destructorTeardown then 1 else 0)
          destructorRuns := s.destructorRuns + 1 }
      else
        { s with tex := some r.1 }

/-- Run a sequence of handle operations. -/
def execOps (s : SysState) (ops : List Op) : SysState :=
  ops.foldl sysStep s

/-- Number of `add_ref` calls in a sequence. -/
def countAddRef (ops : List Op) : Nat :=
  (ops.filter (· == Op.addRef)).length

/-- Number of `release` calls in a sequence. -/
def countRelease (ops : List Op) : Nat :=
  (ops.filter (· == Op.release)).length

/-- Defined executions: no operation is applied through the handle after the
slot has been erased (the C++ contract makes such use undefined).  Every
proper prefix of the sequence leaves the slot occupied; only the final
operation may erase it. -/
def noUseAfterFree (s : SysState) (ops : List Op) : Prop :=
  ∀ n < ops.length, (execOps s (ops.take n)).tex ≠ none

instance (s : SysState) (ops : List Op) : Decidable (noUseAfterFree s ops) :=
  Nat.decidableBallLT _ _

/-- `wgpuInstanceRequestTexture` (lines 131-141) on the system state:
`Resources::createTexture` emplaces a fresh `Texture` into the hive and
wraps it in a `boost::intrusive_ptr` (one `add_ref`); the function then
calls `intrusive_ptr_add_ref` explicitly, and the local `intrusive_ptr`
releases once when it goes out of scope at `return`. -/
def sysCreate : SysState :=
  let s0 : SysState := { tex := some initTexture, teardownCount := 0, destructorRuns := 0 }
  let s1 := sysStep s0 .addRef
  let s2 := sysStep s1 .addRef
  sysStep s2 .release

theorem sysCreate_eq :
    sysCreate = { tex := some ⟨.Available, 1⟩, teardownCount := 0, destructorRuns := 0 } := by
  decide

/-- C5: `wgpuInstanceRequestTexture` returns a non-null handle to a resource
whose reference count is exactly 1 after the call returns and whose internal
state is `Available`; no teardown was enqueued and no destructor ran. -/
theorem C5_create_initial_state :
    sysCreate.tex = some ⟨.Available, 1⟩ ∧
    sysCreate.teardownCount = 0 ∧
    sysCreate.destructorRuns = 0 := by
  decide

/-- Helper: `Texture.destroy` never touches the reference counter. -/
theorem destroy_fst_mRefCounter (t : Texture) :
    (t.destroy).1.mRefCounter = t.mRefCounter := by
  simp only [Texture.destroy]
  split <;> rfl

/-- C6: `destroy()` never frees memory and mutates only the destruction
state: the reference counter is unchanged, the slot stays occupied, and the
destructor does not run. -/
theorem C6_destroy_frame (s : SysState) (t : Texture) (h : s.tex = some t) :
    (sysStep s Op.destroyOp).tex = some (t.destroy).1 ∧
    (t.destroy).1.mRefCounter = t.mRefCounter ∧
    (sysStep s Op.destroyOp).destructorRuns = s.destructorRuns ∧
    (sysStep s Op.destroyOp).tex ≠ none := by
  obtain ⟨tex, td, dr⟩ := s
  simp only at h
  subst h
  refine ⟨rfl, destroy_fst_mRefCounter t, rfl, by simp [sysStep]⟩

theorem C6_destroy_frame_witness :
    ((⟨some ⟨.Available, 4⟩, 0, 0⟩ : SysState).tex = some ⟨.Available, 4⟩) ∧
    ((sysStep ⟨some ⟨.Available, 4⟩, 0, 0⟩ Op.destroyOp).tex =
        some ((⟨.Available, 4⟩ : Texture).destroy).1 ∧
      ((⟨.Available, 4⟩ : Texture).destroy).1.mRefCounter =
        (⟨.Available, 4⟩ : Texture).mRefCounter ∧
      (sysStep ⟨some ⟨.Available, 4⟩, 0, 0⟩ Op.destroyOp).destructorRuns =
        (⟨some ⟨.Available, 4⟩, 0, 0⟩ : SysState).destructorRuns ∧
      (sysStep ⟨some ⟨.Available, 4⟩, 0, 0⟩ Op.destroyOp).tex ≠ none) :=
  ⟨rfl, C6_destroy_frame ⟨some ⟨.Available, 4⟩, 0, 0⟩ ⟨.Available, 4⟩ rfl⟩

/-- C9 counterexample: `add_ref` on a resource whose counter is
`2 ^ 64 - 1` wraps the `std::uint64_t` counter to `0` instead of
incrementing it by exactly 1. -/
theorem C9_addref_wrap_cex :
    (intrusive_ptr_add_ref ⟨.Destroyed, UINT64_MOD - 1⟩).mRefCounter = 0 ∧
    (intrusive_ptr_add_ref ⟨.Destroyed, UINT64_MOD - 1⟩).mRefCounter ≠
      (UINT64_MOD - 1) + 1 := by
  decide

/-- C9 (amended): for every resource, including one whose internal state is
already `Destroyed`, `add_ref` sets the counter to its successor modulo
`2 ^ 64` — an increment by exactly 1 whenever the counter is below
`2 ^ 64 - 1` — and modifies nothing else: it never reads or changes the
destruction state, requests no erase, and triggers no teardown. -/
theorem C9_addref_frame (s : SysState) (t : Texture) (h : s.tex = some t)
    (hlt : t.mRefCounter + 1 < UINT64_MOD) :
    intrusive_ptr_add_ref t = ⟨t.mInternalState, t.mRefCounter + 1⟩ ∧
    sysStep s Op.addRef = { s with tex := some (intrusive_ptr_add_ref t) } := by
  obtain ⟨tex, td, dr⟩ := s
  simp only at h
  subst h
  constructor
  · simp only [intrusive_ptr_add_ref, Nat.mod_eq_of_lt hlt]
  · rfl

theorem C9_addref_frame_witness :
    ((⟨some ⟨.Destroyed, 5⟩, 3, 0⟩ : SysState).tex = some ⟨.Destroyed, 5⟩) ∧
    (⟨.Destroyed, 5⟩ : Texture).mRefCounter + 1 < UINT64_MOD ∧
    (intrusive_ptr_add_ref ⟨.Destroyed, 5⟩ =
        ⟨(⟨.Destroyed, 5⟩ : Texture).mInternalState,
          (⟨.Destroyed, 5⟩ : Texture).mRefCounter + 1⟩ ∧
      sysStep ⟨some ⟨.Destroyed, 5⟩, 3, 0⟩ Op.addRef =
        { (⟨some ⟨.Destroyed, 5⟩, 3, 0⟩ : SysState) with
            tex := some (intrusive_ptr_add_ref ⟨.Destroyed, 5⟩) }) :=
  ⟨rfl, by decide,
    C9_addref_frame ⟨some ⟨.Destroyed, 5⟩, 3, 0⟩ ⟨.Destroyed, 5⟩ rfl (by decide)⟩

/-- C10: when `release` decrements the counter to a nonzero value, the
decrement is its only effect: no erase, no teardown, no destructor run, the
internal state is unchanged and the slot stays occupied. -/
theorem C10_release_nonzero_frame (s : SysState) (t : Texture)
    (h : s.tex = some t)
    (hnz : (intrusive_ptr_release t).1.mRefCounter ≠ 0) :
    sysStep s Op.release = { s with tex := some (intrusive_ptr_release t).1 } ∧
    (intrusive_ptr_release t).1.mInternalState = t.mInternalState ∧
    (sysStep s Op.release).teardownCount = s.teardownCount ∧
    (sysStep s Op.release).destructorRuns = s.destructorRuns ∧
    (sysStep s Op.release).tex ≠ none := by
  obtain ⟨tex, td, dr⟩ := s
  simp only at h
  subst h
  have hb : (intrusive_ptr_release t).2 = false := by
    simp only [intrusive_ptr_release_def] at hnz ⊢
    exact beq_eq_false_iff_ne.mpr hnz
  have hstep : sysStep ⟨some t, td, dr⟩ Op.release =
      { tex := some (intrusive_ptr_release t).1, teardownCount := td,
        destructorRuns := dr } := by
    simp [sysStep, hb]
  exact ⟨hstep, release_fst_mInternalState t, by rw [hstep], by rw [hstep],
    by rw [hstep]; simp⟩

theorem C10_release_nonzero_frame_witness :
    ((⟨some ⟨.Available, 2⟩, 0, 0⟩ : SysState).tex = some ⟨.Available, 2⟩) ∧
    (intrusive_ptr_release ⟨.Available, 2⟩).1.mRefCounter ≠ 0 ∧
    (sysStep ⟨some ⟨.Available, 2⟩, 0, 0⟩ Op.release =
        { (⟨some ⟨.Available, 2⟩, 0, 0⟩ : SysState) with
            tex := some (intrusive_ptr_release ⟨.Available, 2⟩).1 } ∧
      (intrusive_ptr_release ⟨.Available, 2⟩).1.mInternalState =
        (⟨.Available, 2⟩ : Texture).mInternalState ∧
      (sysStep ⟨some ⟨.Available, 2⟩, 0, 0⟩ Op.release).teardownCount =
        (⟨some ⟨.Available, 2⟩, 0, 0⟩ : SysState).teardownCount ∧
      (sysStep ⟨some ⟨.Available, 2⟩, 0, 0⟩ Op.release).destructorRuns =
        (⟨some ⟨.Available, 2⟩, 0, 0⟩ : SysState).destructorRuns ∧
      (sysStep ⟨some ⟨.Available, 2⟩, 0, 0⟩ Op.release).tex ≠ none) :=
  ⟨rfl, by decide,
    C10_release_nonzero_frame ⟨some ⟨.Available, 2⟩, 0, 0⟩ ⟨.Available, 2⟩ rfl
      (by decide)⟩

/-- C4 counterexample: a `release` on a resource whose counter is already 0
wraps the `std::uint64_t` counter to `2 ^ 64 - 1`.  The count is neither
saturated at zero nor left unchanged, and `intrusive_ptr_release` has no
error channel, so no `DoubleReleaseDetected` report is surfaced. -/
theorem C4_underflow_wrap_cex :
    (intrusive_ptr_release ⟨.Available, 0⟩).1.mRefCounter = UINT64_MOD - 1 ∧
    (intrusive_ptr_release ⟨.Available, 0⟩).1.mRefCounter ≠ 0 ∧
    (intrusive_ptr_release ⟨.Available, 0⟩).2 = false := by
  decide

/-- C4 (amended): when a `release` call would decrement the counter below
zero, the counter wraps modulo `2 ^ 64` to `2 ^ 64 - 1`; no
`DoubleReleaseDetected` report is surfaced and no saturation happens.  The
wrapped value is nonzero, so that release call itself requests no erase and
causes no premature reclamation — but the count is corrupted by the wrap
rather than protected. -/
theorem C4_underflow_wraps (s : SysState) (t : Texture) (h : s.tex = some t)
    (h0 : t.mRefCounter = 0) :
    intrusive_ptr_release t = (⟨t.mInternalState, UINT64_MOD - 1⟩, false) ∧
    sysStep s Op.release =
      { s with tex := some ⟨t.mInternalState, UINT64_MOD - 1⟩ } ∧
    (sysStep s Op.release).destructorRuns = s.destructorRuns := by
  obtain ⟨tex, td, dr⟩ := s
  simp only at h
  subst h
  have hm : (0 + (UINT64_MOD - 1)) % UINT64_MOD = UINT64_MOD - 1 := by decide
  have hz : (((0 + (UINT64_MOD - 1)) % UINT64_MOD) == 0) = false := by decide
  have hr : intrusive_ptr_release t = (⟨t.mInternalState, UINT64_MOD - 1⟩, false) := by
    rw [intrusive_ptr_release_def, h0, hz, hm]
  refine ⟨hr, ?_, ?_⟩ <;> simp [sysStep, hr]

theorem C4_underflow_wraps_witness :
    ((⟨some ⟨.Destroyed, 0⟩, 1, 0⟩ : SysState).tex = some ⟨.Destroyed, 0⟩) ∧
    (⟨.Destroyed, 0⟩ : Texture).mRefCounter = 0 ∧
    (intrusive_ptr_release ⟨.Destroyed, 0⟩ =
        (⟨(⟨.Destroyed, 0⟩ : Texture).mInternalState, UINT64_MOD - 1⟩, false) ∧
      sysStep ⟨some ⟨.Destroyed, 0⟩, 1, 0⟩ Op.release =
        { (⟨some ⟨.Destroyed, 0⟩, 1, 0⟩ : SysState) with
            tex := some ⟨(⟨.Destroyed, 0⟩ : Texture).mInternalState, UINT64_MOD - 1⟩ } ∧
      (sysStep ⟨some ⟨.Destroyed, 0⟩, 1, 0⟩ Op.release).destructorRuns =
        (⟨some ⟨.Destroyed, 0⟩, 1, 0⟩ : SysState).destructorRuns) :=
  ⟨rfl, rfl,
    C4_underflow_wraps ⟨some ⟨.Destroyed, 0⟩, 1, 0⟩ ⟨.Destroyed, 0⟩ rfl rfl⟩

theorem execOps_nil (s : SysState) : execOps s [] = s := rfl

theorem execOps_cons (s : SysState) (op : Op) (ops : List Op) :
    execOps s (op :: ops) = execOps (sysStep s op) ops := rfl

/-- Adding a reference never changes the internal state. -/
theorem add_ref_mInternalState (t : Texture) :
    (intrusive_ptr_add_ref t).mInternalState = t.mInternalState := by
  obtain ⟨st, c⟩ := t
  rfl

/-- After `destroy`, the state is `Destroyed` or whatever it already was. -/
theorem destroy_fst_mInternalState (t : Texture) :
    (t.destroy).1.mInternalState = .Destroyed ∨
      (t.destroy).1.mInternalState = t.mInternalState := by
  simp only [Texture.destroy]
  split
  · right; rfl
  · left; rfl

/-- `destroy` on an already-destroyed resource returns it unchanged and
enqueues nothing. -/
theorem destroy_of_destroyed (t : Texture) (h : t.mInternalState = .Destroyed) :
    t.destroy = (t, false) := by
  simp [Texture.destroy, h]

/-- An erased slot stays erased: the model freezes. -/
theorem sysStep_none (s : SysState) (op : Op) (h : s.tex = none) :
    sysStep s op = s := by
  obtain ⟨tex, td, dr⟩ := s
  simp only at h
  subst h
  rfl

theorem execOps_none (ops : List Op) (s : SysState) (h : s.tex = none) :
    execOps s ops = s := by
  induction ops with
  | nil => rfl
  | cons op rest ih => rw [execOps_cons, sysStep_none s op h]; exact ih

/-- `wgpuTextureDestroy` on a resource already in state `Destroyed` is a
complete no-op on the system state. -/
theorem sysStep_destroy_noop (s : SysState) (t : Texture) (ht : s.tex = some t)
    (hd : t.mInternalState = .Destroyed) : sysStep s Op.destroyOp = s := by
  obtain ⟨tex, td, dr⟩ := s
  simp only at ht
  subst ht
  simp [sysStep, destroy_of_destroyed t hd]

theorem execOps_replicate_destroy (m : Nat) (s : SysState) (t : Texture)
    (ht : s.tex = some t) (hd : t.mInternalState = .Destroyed) :
    execOps s (List.replicate m Op.destroyOp) = s := by
  induction m with
  | zero => rfl
  | succ k ih =>
    rw [List.replicate_succ, execOps_cons, sysStep_destroy_noop s t ht hd]
    exact ih

/-- C2: calling `destroy()` any number `n ≥ 1` of times on a created resource
always produces the same observable state — internal state `Destroyed`,
counter still 1, GPU teardown enqueued exactly once, destructor never run —
and one further `destroy()` call changes nothing. -/
theorem C2_destroy_idempotent (n : Nat) (h : 1 ≤ n) :
    execOps sysCreate (List.replicate n Op.destroyOp) =
      ⟨some ⟨.Destroyed, 1⟩, 1, 0⟩ ∧
    execOps sysCreate (List.replicate (n + 1) Op.destroyOp) =
      execOps sysCreate (List.replicate n Op.destroyOp) := by
  obtain ⟨m, rfl⟩ : ∃ m, n = m + 1 := ⟨n - 1, by omega⟩
  have h1 : sysStep sysCreate Op.destroyOp = ⟨some ⟨.Destroyed, 1⟩, 1, 0⟩ := by
    decide
  have hfix : ∀ k, execOps ⟨some ⟨.Destroyed, 1⟩, 1, 0⟩
      (List.replicate k Op.destroyOp) = ⟨some ⟨.Destroyed, 1⟩, 1, 0⟩ :=
    fun k => execOps_replicate_destroy k _ ⟨.Destroyed, 1⟩ rfl rfl
  refine ⟨?_, ?_⟩
  · rw [List.replicate_succ, execOps_cons, h1, hfix]
  · rw [List.replicate_succ, execOps_cons, h1, hfix,
      List.replicate_succ, execOps_cons, h1, hfix]

theorem C2_destroy_idempotent_witness :
    1 ≤ 2 ∧
    (execOps sysCreate (List.replicate 2 Op.destroyOp) =
        ⟨some ⟨.Destroyed, 1⟩, 1, 0⟩ ∧
      execOps sysCreate (List.replicate (2 + 1) Op.destroyOp) =
        execOps sysCreate (List.replicate 2 Op.destroyOp)) :=
  ⟨by decide, C2_destroy_idempotent 2 (by decide)⟩

/-- Every texture held in the state has an internal state other than
`Unavailable`. -/
def stateOK (s : SysState) : Prop :=
  ∀ t, s.tex = some t → t.mInternalState ≠ .Unavailable

theorem stateOK_step (s : SysState) (op : Op) (h : stateOK s) :
    stateOK (sysStep s op) := by
  intro t' ht'
  obtain ⟨tex, td, dr⟩ := s
  cases tex with
  | none => exact h t' ht'
  | some t =>
    have hs := h t rfl
    cases op with
    | addRef =>
      simp only [sysStep, Option.some.injEq] at ht'
      rw [← ht', add_ref_mInternalState]
      exact hs
    | destroyOp =>
      simp only [sysStep, Option.some.injEq] at ht'
      rcases destroy_fst_mInternalState t with h1 | h1
      · rw [← ht', h1]; decide
      · rw [← ht', h1]; exact hs
    | release =>
      rcases hz : (intrusive_ptr_release t).2 with hfalse | htrue
      · simp only [sysStep, hz, Bool.false_eq_true, if_false,
          Option.some.injEq] at ht'
        rw [← ht', release_fst_mInternalState]
        exact hs
      · simp [sysStep, hz] at ht'

theorem stateOK_execOps (ops : List Op) (s : SysState) (h : stateOK s) :
    stateOK (execOps s ops) := by
  induction ops generalizing s with
  | nil => exact h
  | cons op rest ih => exact ih _ (stateOK_step s op h)

theorem stateOK_sysCreate : stateOK sysCreate := by
  intro t ht
  have ht2 : some (⟨.Available, 1⟩ : Texture) = some t := by
    rw [← ht, sysCreate_eq]
  injection ht2 with h2
  subst h2
  decide

/-- One step never un-destroys a destroyed resource. -/
theorem destroyed_step (s : SysState) (op : Op) (t t' : Texture)
    (ht : s.tex = some t) (hd : t.mInternalState = .Destroyed)
    (ht' : (sysStep s op).tex = some t') : t'.mInternalState = .Destroyed := by
  obtain ⟨tex, td, dr⟩ := s
  simp only at ht
  subst ht
  cases op with
  | addRef =>
    simp only [sysStep, Option.some.injEq] at ht'
    rw [← ht', add_ref_mInternalState]
    exact hd
  | destroyOp =>
    simp only [sysStep, Option.some.injEq] at ht'
    rw [← ht', destroy_of_destroyed t hd]
    exact hd
  | release =>
    rcases hz : (intrusive_ptr_release t).2 with hfalse | htrue
    · simp only [sysStep, hz, Bool.false_eq_true, if_false,
        Option.some.injEq] at ht'
      rw [← ht', release_fst_mInternalState]
      exact hd
    · simp [sysStep, hz] at ht'

theorem destroyed_execOps (ops : List Op) (s : SysState) (t : Texture)
    (ht : s.tex = some t) (hd : t.mInternalState = .Destroyed) :
    ∀ t', (execOps s ops).tex = some t' → t'.mInternalState = .Destroyed := by
  induction ops generalizing s t with
  | nil =>
    intro t' ht'
    rw [execOps_nil, ht, Option.some.injEq] at ht'
    rw [← ht']
    exact hd
  | cons op rest ih =>
    intro t' ht'
    rw [execOps_cons] at ht'
    cases htex : (sysStep s op).tex with
    | none =>
      rw [execOps_none rest _ htex, htex] at ht'
      cases ht'
    | some t1 =>
      exact ih (sysStep s op) t1 htex (destroyed_step s op t t1 ht hd htex) t' ht'

/-- C7: every resource state reachable from creation by any sequence of
add-ref / release / destroy calls is never `Unavailable`, and the internal
state only ever moves `Available → Destroyed`, never in reverse: once a
reachable state is `Destroyed`, every later reachable state is still
`Destroyed`. -/
theorem C7_state_machine (ops extra : List Op) (t t2 : Texture)
    (h1 : (execOps sysCreate ops).tex = some t)
    (h2 : (execOps (execOps sysCreate ops) extra).tex = some t2) :
    t.mInternalState ≠ .Unavailable ∧
    t2.mInternalState ≠ .Unavailable ∧
    (t.mInternalState = .Destroyed → t2.mInternalState = .Destroyed) := by
  refine ⟨stateOK_execOps ops sysCreate stateOK_sysCreate t h1, ?_, ?_⟩
  · exact stateOK_execOps extra _
      (stateOK_execOps ops sysCreate stateOK_sysCreate) t2 h2
  · intro hd
    exact destroyed_execOps extra _ t h1 hd t2 h2

theorem C7_state_machine_witness :
    ((execOps sysCreate [Op.destroyOp]).tex = some ⟨.Destroyed, 1⟩) ∧
    ((execOps (execOps sysCreate [Op.destroyOp]) [Op.addRef]).tex =
      some ⟨.Destroyed, 2⟩) ∧
    ((⟨.Destroyed, 1⟩ : Texture).mInternalState ≠ .Unavailable ∧
      (⟨.Destroyed, 2⟩ : Texture).mInternalState ≠ .Unavailable ∧
      ((⟨.Destroyed, 1⟩ : Texture).mInternalState = .Destroyed →
        (⟨.Destroyed, 2⟩ : Texture).mInternalState = .Destroyed)) :=
  ⟨by decide, by decide,
    C7_state_machine [Op.destroyOp] [Op.addRef] ⟨.Destroyed, 1⟩ ⟨.Destroyed, 2⟩
      (by decide) (by decide)⟩

/-- Store-level error taxonomy, from the spec's section 7. -/
inductive StoreError where
  | InvalidAddress
deriving DecidableEq, Repr

/-- Modelled from the spec: the stable-address store (`plf::hive`, whose
implementation `plf_hive.hpp` is not part of `src/`).  Spec section 4.1:
the store tracks which addresses currently hold a live, occupied slot. -/
structure StableStore where
  occupied : Finset Nat
deriving DecidableEq

/-- Modelled from the spec: `erase(address)` — "destructs the `T` at that
address and marks the slot free.  Fails (no-op or reports `InvalidAddress`)
if the address does not currently refer to a live, occupied slot".  The
returned `Bool` records whether a destructor ran. -/
def StableStore.eraseAddr (s : StableStore) (a : Nat) :
    StableStore × Bool × Option StoreError :=
  if a ∈ s.occupied then (⟨s.occupied.erase a⟩, true, none)
  else (s, false, some .InvalidAddress)

theorem eraseAddr_twice (s : StableStore) (a : Nat) :
    ((s.eraseAddr a).1).eraseAddr a =
      ((s.eraseAddr a).1, false, some StoreError.InvalidAddress) := by
  by_cases h : a ∈ s.occupied <;> simp [StableStore.eraseAddr, h]

/-- C8: `erase` on an address that does not refer to a live, occupied slot
is a no-op that reports `InvalidAddress` and destructs nothing; consequently
a double-erase of the same address leaves the store unchanged and destructs
nothing the second time. -/
theorem C8_erase_invalid_guard (s : StableStore) (a : Nat)
    (h : a ∉ s.occupied) :
    s.eraseAddr a = (s, false, some StoreError.InvalidAddress) ∧
    ((s.eraseAddr a).1).eraseAddr a =
      ((s.eraseAddr a).1, false, some StoreError.InvalidAddress) :=
  ⟨by simp [StableStore.eraseAddr, h], eraseAddr_twice s a⟩

theorem C8_erase_invalid_guard_witness :
    ((7 : Nat) ∉ (⟨{3}⟩ : StableStore).occupied) ∧
    ((⟨{3}⟩ : StableStore).eraseAddr 7 =
        (⟨{3}⟩, false, some StoreError.InvalidAddress) ∧
      (((⟨{3}⟩ : StableStore).eraseAddr 7).1).eraseAddr 7 =
        (((⟨{3}⟩ : StableStore).eraseAddr 7).1, false,
          some StoreError.InvalidAddress)) :=
  ⟨by decide, C8_erase_invalid_guard ⟨{3}⟩ 7 (by decide)⟩

theorem countAddRef_nil : countAddRef [] = 0 := rfl

theorem countRelease_nil : countRelease [] = 0 := rfl

theorem countAddRef_cons_addRef (ops : List Op) :
    countAddRef (Op.addRef :: ops) = countAddRef ops + 1 := rfl

theorem countAddRef_cons_release (ops : List Op) :
    countAddRef (Op.release :: ops) = countAddRef ops := rfl

theorem countRelease_cons_addRef (ops : List Op) :
    countRelease (Op.addRef :: ops) = countRelease ops := rfl

theorem countRelease_cons_release (ops : List Op) :
    countRelease (Op.release :: ops) = countRelease ops + 1 := rfl

theorem noUseAfterFree_cons (s : SysState) (op : Op) (ops : List Op)
    (h : noUseAfterFree s (op :: ops)) : noUseAfterFree (sysStep s op) ops := by
  intro n hn
  have h2 := h (n + 1) (by simp only [List.length_cons]; omega)
  rw [List.take_succ_cons, execOps_cons] at h2
  exact h2

theorem sysStep_addRef_eq (t : Texture) (td dr : Nat) :
    sysStep ⟨some t, td, dr⟩ Op.addRef =
      ⟨some (intrusive_ptr_add_ref t), td, dr⟩ := rfl

/-- Below the wrap boundary, `add_ref` really increments by one. -/
theorem add_ref_counter (t : Texture) (h : t.mRefCounter + 1 < UINT64_MOD) :
    (intrusive_ptr_add_ref t).mRefCounter = t.mRefCounter + 1 := by
  obtain ⟨st, c⟩ := t
  show (c + 1) % UINT64_MOD = c + 1
  exact Nat.mod_eq_of_lt h

/-- For an in-range positive counter, `release` decrements by one. -/
theorem release_counter_dec (t : Texture) (h1 : 1 ≤ t.mRefCounter)
    (h2 : t.mRefCounter < UINT64_MOD) :
    (intrusive_ptr_release t).1.mRefCounter = t.mRefCounter - 1 := by
  rw [release_fst_mRefCounter]
  rw [UINT64_MOD_val] at h2 ⊢
  omega

theorem release_snd_iff (t : Texture) :
    (intrusive_ptr_release t).2 = true ↔
      (intrusive_ptr_release t).1.mRefCounter = 0 := by
  rw [release_snd, release_fst_mRefCounter]
  exact beq_iff_eq

theorem sysStep_release_live (t : Texture) (td dr : Nat)
    (hz : (intrusive_ptr_release t).2 = false) :
    sysStep ⟨some t, td, dr⟩ Op.release =
      ⟨some (intrusive_ptr_release t).1, td, dr⟩ := by
  simp [sysStep, hz]

theorem sysStep_release_erase_tear (t : Texture) (td dr : Nat)
    (hz : (intrusive_ptr_release t).2 = true)
    (htear : (intrusive_ptr_release t).1.destructorTeardown = true) :
    sysStep ⟨some t, td, dr⟩ Op.release = ⟨none, td + 1, dr + 1⟩ := by
  simp [sysStep, hz, htear]

/-- The destructor of a still-`Available` resource enqueues the teardown. -/
theorem destructorTeardown_available (t : Texture)
    (h : t.mInternalState = .Available) : t.destructorTeardown = true := by
  simp [Texture.destructorTeardown, Texture.destroy, h]

/-- Main invariant of the add-ref / release protocol, by induction over the
operation sequence.  Starting from an `Available` resource with a positive
in-range counter and a defined (no use-after-free) sequence of add-ref and
release calls, either the final operation erased the slot — and then the
releases outnumber the add-refs by exactly the initial count, the GPU
teardown was enqueued exactly once and the destructor ran exactly once — or
the slot is still occupied by an `Available` resource with positive counter
satisfying the counting equation, with no teardown and no destructor run. -/
theorem exec_addrel_inv (ops : List Op) :
    ∀ (t : Texture) (td dr : Nat),
      (∀ op ∈ ops, op = Op.addRef ∨ op = Op.release) →
      t.mInternalState = .Available →
      1 ≤ t.mRefCounter →
      t.mRefCounter + ops.length < UINT64_MOD →
      noUseAfterFree ⟨some t, td, dr⟩ ops →
      ((execOps ⟨some t, td, dr⟩ ops).tex = none ∧
        countRelease ops = countAddRef ops + t.mRefCounter ∧
        (execOps ⟨some t, td, dr⟩ ops).teardownCount = td + 1 ∧
        (execOps ⟨some t, td, dr⟩ ops).destructorRuns = dr + 1) ∨
      (∃ t', (execOps ⟨some t, td, dr⟩ ops).tex = some t' ∧
        t'.mInternalState = .Available ∧
        1 ≤ t'.mRefCounter ∧
        t'.mRefCounter + countRelease ops = t.mRefCounter + countAddRef ops ∧
        (execOps ⟨some t, td, dr⟩ ops).teardownCount = td ∧
        (execOps ⟨some t, td, dr⟩ ops).destructorRuns = dr) := by
  induction ops with
  | nil =>
    intro t td dr hops hst hc hlen hadm
    right
    exact ⟨t, rfl, hst, hc, rfl, rfl, rfl⟩
  | cons op rest ih =>
    intro t td dr hops hst hc hlen hadm
    have hrest : ∀ o ∈ rest, o = Op.addRef ∨ o = Op.release :=
      fun o ho => hops o (List.mem_cons_of_mem op ho)
    have hlen2 : t.mRefCounter + rest.length + 1 < UINT64_MOD := by
      simp only [List.length_cons] at hlen
      omega
    rcases hops op (List.mem_cons_self op rest) with hA | hR
    · subst hA
      rw [execOps_cons, sysStep_addRef_eq]
      have hlt : t.mRefCounter + 1 < UINT64_MOD := by omega
      have hcnt : (intrusive_ptr_add_ref t).mRefCounter = t.mRefCounter + 1 :=
        add_ref_counter t hlt
      have hst2 : (intrusive_ptr_add_ref t).mInternalState = .Available := by
        rw [add_ref_mInternalState]; exact hst
      have hadm2 : noUseAfterFree ⟨some (intrusive_ptr_add_ref t), td, dr⟩ rest := by
        have h2 := noUseAfterFree_cons _ _ _ hadm
        rwa [sysStep_addRef_eq] at h2
      rcases ih (intrusive_ptr_add_ref t) td dr hrest hst2 (by omega)
          (by omega) hadm2 with
        ⟨hnone, hcount, htd, hdr⟩ | ⟨t', hsome, hst3, hc3, hcount, htd, hdr⟩
      · left
        refine ⟨hnone, ?_, htd, hdr⟩
        rw [countRelease_cons_addRef, countAddRef_cons_addRef]
        omega
      · right
        refine ⟨t', hsome, hst3, hc3, ?_, htd, hdr⟩
        rw [countRelease_cons_addRef, countAddRef_cons_addRef]
        omega
    · subst hR
      have hcM : t.mRefCounter < UINT64_MOD := by omega
      have hdec : (intrusive_ptr_release t).1.mRefCounter = t.mRefCounter - 1 :=
        release_counter_dec t hc hcM
      by_cases h1 : t.mRefCounter = 1
      · have hz : (intrusive_ptr_release t).2 = true := by
          rw [release_snd_iff, hdec, h1]
        have htear : (intrusive_ptr_release t).1.destructorTeardown = true := by
          apply destructorTeardown_available
          rw [release_fst_mInternalState]
          exact hst
        cases rest with
        | nil =>
          rw [execOps_cons, sysStep_release_erase_tear t td dr hz htear,
            execOps_nil]
          left
          refine ⟨rfl, ?_, rfl, rfl⟩
          rw [h1]
          decide
        | cons op2 rest2 =>
          exfalso
          have hlive := hadm 1 (by simp only [List.length_cons]; omega)
          rw [List.take_succ_cons, List.take_zero, execOps_cons, execOps_nil,
            sysStep_release_erase_tear t td dr hz htear] at hlive
          exact hlive rfl
      · have hz : (intrusive_ptr_release t).2 = false := by
          cases hb2 : (intrusive_ptr_release t).2 with
          | false => rfl
          | true =>
            exfalso
            have h0 := (release_snd_iff t).mp hb2
            rw [hdec] at h0
            omega
        rw [execOps_cons, sysStep_release_live t td dr hz]
        have hst2 : (intrusive_ptr_release t).1.mInternalState = .Available := by
          rw [release_fst_mInternalState]; exact hst
        have hadm2 :
            noUseAfterFree ⟨some (intrusive_ptr_release t).1, td, dr⟩ rest := by
          have h2 := noUseAfterFree_cons _ _ _ hadm
          rwa [sysStep_release_live t td dr hz] at h2
        rcases ih (intrusive_ptr_release t).1 td dr hrest hst2 (by omega)
            (by omega) hadm2 with
          ⟨hnone, hcount, htd, hdr⟩ | ⟨t', hsome, hst3, hc3, hcount, htd, hdr⟩
        · left
          refine ⟨hnone, ?_, htd, hdr⟩
          rw [countRelease_cons_release, countAddRef_cons_release]
          omega
        · right
          refine ⟨t', hsome, hst3, hc3, ?_, htd, hdr⟩
          rw [countRelease_cons_release, countAddRef_cons_release]
          omega

/-- C1: for every defined sequence of add-ref / release calls on a single
created resource (no call after the slot is erased, sequence shorter than
the counter's wrap bound), the resource is reclaimed — slot erased and
destructor run — if and only if the number of releases equals the number of
add-refs plus one (the creation reference), and the destructor runs at most
once, exactly when reclamation happens. -/
theorem C1_refcount_reclaim (ops : List Op)
    (hops : ∀ op ∈ ops, op = Op.addRef ∨ op = Op.release)
    (hadm : noUseAfterFree sysCreate ops)
    (hlen : 1 + ops.length < UINT64_MOD) :
    ((execOps sysCreate ops).tex = none ↔
      countRelease ops = countAddRef ops + 1) ∧
    (execOps sysCreate ops).destructorRuns ≤ 1 ∧
    ((execOps sysCreate ops).tex = none ↔
      (execOps sysCreate ops).destructorRuns = 1) := by
  rw [sysCreate_eq] at hadm ⊢
  rcases exec_addrel_inv ops ⟨.Available, 1⟩ 0 0 hops rfl (Nat.le_refl 1)
      hlen hadm with
    ⟨hnone, hcount, htd, hdr⟩ | ⟨t', hsome, hst3, hc3, hcount, htd, hdr⟩
  · have hcount2 : countRelease ops = countAddRef ops + 1 := hcount
    have hdr2 : (execOps ⟨some ⟨.Available, 1⟩, 0, 0⟩ ops).destructorRuns = 1 :=
      hdr
    exact ⟨⟨fun _ => hcount2, fun _ => hnone⟩, le_of_eq hdr2,
      ⟨fun _ => hdr2, fun _ => hnone⟩⟩
  · have hcount2 : t'.mRefCounter + countRelease ops = 1 + countAddRef ops :=
      hcount
    have hdr2 : (execOps ⟨some ⟨.Available, 1⟩, 0, 0⟩ ops).destructorRuns = 0 :=
      hdr
    refine ⟨⟨?_, ?_⟩, ?_, ?_, ?_⟩
    · intro h
      rw [hsome] at h
      cases h
    · intro hcnt
      exfalso
      omega
    · rw [hdr2]
      omega
    · intro h
      rw [hsome] at h
      cases h
    · intro h
      exfalso
      rw [hdr2] at h
      exact Nat.zero_ne_one h

theorem C1_refcount_reclaim_witness :
    (∀ op ∈ [Op.addRef, Op.release, Op.release],
      op = Op.addRef ∨ op = Op.release) ∧
    noUseAfterFree sysCreate [Op.addRef, Op.release, Op.release] ∧
    1 + [Op.addRef, Op.release, Op.release].length < UINT64_MOD ∧
    (((execOps sysCreate [Op.addRef, Op.release, Op.release]).tex = none ↔
        countRelease [Op.addRef, Op.release, Op.release] =
          countAddRef [Op.addRef, Op.release, Op.release] + 1) ∧
      (execOps sysCreate [Op.addRef, Op.release, Op.release]).destructorRuns
        ≤ 1 ∧
      ((execOps sysCreate [Op.addRef, Op.release, Op.release]).tex = none ↔
        (execOps sysCreate [Op.addRef, Op.release, Op.release]).destructorRuns
          = 1)) :=
  ⟨by decide, by decide, by decide,
    C1_refcount_reclaim [Op.addRef, Op.release, Op.release] (by decide)
      (by decide) (by decide)⟩

/-- C3: if the releases outnumber the add-refs by exactly one — so `release`
drives the count to zero — on a created resource whose `destroy()` was never
called, the slot is erased, the GPU teardown still runs exactly once (the
destructor invokes `destroy()` because the state is still `Available`), and
the in-memory object is destructed exactly once: nothing is leaked. -/
theorem C3_teardown_on_reclaim (ops : List Op)
    (hops : ∀ op ∈ ops, op = Op.addRef ∨ op = Op.release)
    (hadm : noUseAfterFree sysCreate ops)
    (hlen : 1 + ops.length < UINT64_MOD)
    (hbal : countRelease ops = countAddRef ops + 1) :
    (execOps sysCreate ops).tex = none ∧
    (execOps sysCreate ops).teardownCount = 1 ∧
    (execOps sysCreate ops).destructorRuns = 1 := by
  rw [sysCreate_eq] at hadm ⊢
  rcases exec_addrel_inv ops ⟨.Available, 1⟩ 0 0 hops rfl (Nat.le_refl 1)
      hlen hadm with
    ⟨hnone, hcount, htd, hdr⟩ | ⟨t', hsome, hst3, hc3, hcount, htd, hdr⟩
  · exact ⟨hnone, htd, hdr⟩
  · exfalso
    have hcount2 : t'.mRefCounter + countRelease ops = 1 + countAddRef ops :=
      hcount
    omega

theorem C3_teardown_on_reclaim_witness :
    (∀ op ∈ [Op.release], op = Op.addRef ∨ op = Op.release) ∧
    noUseAfterFree sysCreate [Op.release] ∧
    1 + [Op.release].length < UINT64_MOD ∧
    countRelease [Op.release] = countAddRef [Op.release] + 1 ∧
    ((execOps sysCreate [Op.release]).tex = none ∧
      (execOps sysCreate [Op.release]).teardownCount = 1 ∧
      (execOps sysCreate [Op.release]).destructorRuns = 1) :=
  ⟨by decide, by decide, by decide, by decide,
    C3_teardown_on_reclaim [Op.release] (by decide) (by decide) (by decide)
      (by decide)⟩

end IntrusiveModel
